import Mathlib

/-!
Shallow embedding of `src/server.js` (roomchat): an admission-controlled chat
room server.  Rooms and messages live in a record store; live connections are
tracked in three in-memory maps (`clientsByRoom`, `adminsByRoom`, `pending`).
JavaScript `Map`s are modelled as association lists in insertion order,
JavaScript `Set`s as duplicate-free lists in insertion order, and each event
handler is a pure function from the server state (plus the inbound message) to
the new state and the ordered list of socket sends / closes it performs.
-/

namespace Roomchat

/-- A row of the `rooms` table (`CREATE TABLE rooms` in src/server.js). -/
structure Room where
  roomId : String
  roomPassHash : String
  adminPassHash : String
  enabled : Bool
deriving DecidableEq, Repr

/-- A row of the `messages` table; `id` is autoincrement so list position is
insertion order. -/
structure MessageRec where
  roomId : String
  sender : String
  kind : String
  text : Option String
  fileUrl : Option String
  fileMime : Option String
  fileName : Option String
  ts : Nat
deriving DecidableEq, Repr

/-- A value of the `pending` map: `{ ws, roomId, sender, createdAt }`.
Connections are identified by a `Nat`. -/
structure PendingReq where
  connId : Nat
  roomId : String
  sender : String
  createdAt : Nat
deriving DecidableEq, Repr

/-- The per-socket fields the handlers mutate: `ws.roomId`, `ws.sender`,
`ws.isAdmin`. -/
structure ConnState where
  roomId : Option String
  sender : String
  isAdmin : Bool
deriving DecidableEq, Repr

/-- JavaScript `Map.get`. -/
def alistLookup {α β : Type} [DecidableEq α] : List (α × β) → α → Option β
  | [], _ => none
  | (k, v) :: rest, key => if k = key then some v else alistLookup rest key

/-- JavaScript `Map.set`: overwrite in place when the key exists, else append
(insertion order preserved). -/
def alistSet {α β : Type} [DecidableEq α] : List (α × β) → α → β → List (α × β)
  | [], key, val => [(key, val)]
  | (k, v) :: rest, key, val =>
      if k = key then (k, val) :: rest else (k, v) :: alistSet rest key val

/-- JavaScript `Map.delete`. -/
def alistDelete {α β : Type} [DecidableEq α] : List (α × β) → α → List (α × β)
  | [], _ => []
  | (k, v) :: rest, key => if k = key then rest else (k, v) :: alistDelete rest key

/-- JavaScript `Set.add` (no-op when already present, else appended last). -/
def setAdd (s : List Nat) (x : Nat) : List Nat := if x ∈ s then s else s ++ [x]

/-- `roomId -> Set(ws)` maps (`clientsByRoom`, `adminsByRoom`). -/
abbrev RoomMap := List (String × List Nat)

/-- `addTo(map, key, ws)` from src/server.js. -/
def addTo (m : RoomMap) (key : String) (ws : Nat) : RoomMap :=
  match alistLookup m key with
  | none => alistSet m key (setAdd [] ws)
  | some s => alistSet m key (setAdd s ws)

/-- `removeFrom(map, key, ws)` from src/server.js: delete the member, and prune
the key when its set becomes empty. -/
def removeFrom (m : RoomMap) (key : String) (ws : Nat) : RoomMap :=
  match alistLookup m key with
  | none => m
  | some s =>
      let s2 := s.erase ws
      if s2.length = 0 then alistDelete m key else alistSet m key s2

/-- Modelled external collaborator (bcrypt.hash): an injective one-way tag;
`bcrypt.compare` succeeds exactly on the hash of the same plaintext. -/
def bcryptHash (plain : String) : String := "$2b$10$" ++ plain

/-- Modelled external collaborator (bcrypt.compare). -/
def bcryptCompare (plain hash : String) : Bool := hash = bcryptHash plain

/-- JavaScript `x || dflt` for strings: the empty string is falsy. -/
def jsOr (s dflt : String) : String := if s = "" then dflt else s

/-- JavaScript `s.trim()`: strip leading and trailing whitespace. -/
def jsTrim (s : String) : String :=
  String.mk (((s.data.dropWhile Char.isWhitespace).reverse.dropWhile Char.isWhitespace).reverse)

/-- Character-list version of `startsWith` (first argument: the string,
second: the pattern). -/
def strStarts : List Char → List Char → Bool
  | _, [] => true
  | [], _ :: _ => false
  | c :: cs, p :: ps => c = p && strStarts cs ps

/-- JavaScript `s.startsWith(pre)`. -/
def jsStartsWith (s pre : String) : Bool := strStarts s.data pre.data

/-- JavaScript `s.slice(0, 20)`. -/
def jsSlice20 (s : String) : String := String.mk (s.data.take 20)

/-- JavaScript `s.toLowerCase()`. -/
def jsToLower (s : String) : String := String.mk (s.data.map Char.toLower)

/-- The whole server state: the two database tables, the three runtime maps,
the per-socket fields of every live connection, and the upload blob store. -/
structure ServerState where
  rooms : List Room
  messages : List MessageRec
  clientsByRoom : RoomMap
  adminsByRoom : RoomMap
  pending : List (String × PendingReq)
  conns : List (Nat × ConnState)
  blobs : List String
deriving Repr

/-- `SELECT * FROM rooms WHERE roomId = ?` (roomId is the primary key). -/
def findRoom : List Room → String → Option Room
  | [], _ => none
  | r :: rest, rid => if r.roomId = rid then some r else findRoom rest rid

/-- `getRoom(roomId)` from src/server.js. -/
def getRoom (st : ServerState) (rid : String) : Option Room := findRoom st.rooms rid

/-- The column set `getHistory` selects (everything but `id` and `roomId`). -/
structure HistEntry where
  sender : String
  kind : String
  text : Option String
  fileUrl : Option String
  fileMime : Option String
  fileName : Option String
  ts : Nat
deriving DecidableEq, Repr

/-- Projection of a message row onto the history columns. -/
def histProj (m : MessageRec) : HistEntry :=
  ⟨m.sender, m.kind, m.text, m.fileUrl, m.fileMime, m.fileName, m.ts⟩

/-- `WHERE roomId = ?` over the messages table, in `ORDER BY id ASC` order. -/
def roomMessages (msgs : List MessageRec) (rid : String) : List MessageRec :=
  msgs.filter (fun m => m.roomId == rid)

/-- `getHistory(roomId, limit)` from src/server.js: the oldest `limit` rows of
the room, oldest first (`ORDER BY id ASC LIMIT ?`). -/
def getHistory (st : ServerState) (rid : String) (limit : Nat) : List HistEntry :=
  ((roomMessages st.messages rid).take limit).map histProj

/-- `addText(roomId, sender, text)`: append a text row. -/
def addText (st : ServerState) (rid sender text : String) (t : Nat) : ServerState :=
  { st with messages := st.messages ++ [⟨rid, sender, "text", some text, none, none, none, t⟩] }

/-- `addFile(roomId, sender, fileUrl, fileMime, fileName)`: append a file row. -/
def addFile (st : ServerState) (rid sender fileUrl fileMime fileName : String) (t : Nat) :
    ServerState :=
  { st with messages :=
      st.messages ++ [⟨rid, sender, "file", none, some fileUrl, some fileMime, some fileName, t⟩] }

/-- `clearChat(roomId)`: `DELETE FROM messages WHERE roomId=?`. -/
def clearChat (st : ServerState) (rid : String) : ServerState :=
  { st with messages := st.messages.filter (fun m => ¬ m.roomId == rid) }

/-- `setRoomEnabled(roomId, enabled)`: `UPDATE rooms SET enabled=? WHERE roomId=?`. -/
def setRoomEnabled (st : ServerState) (rid : String) (e : Bool) : ServerState :=
  { st with rooms := st.rooms.map (fun r => if r.roomId = rid then { r with enabled := e } else r) }

/-- The JSON frames the server writes to sockets. -/
inductive WsMsg where
  | errMsg (error : String)
  | waiting (requestId : String)
  | joinRequest (requestId sender : String) (createdAt : Nat)
  | joinRequestClosed (requestId : String)
  | joinDenied
  | joined (roomId : String)
  | history (messages : List HistEntry)
  | system (text : String)
  | chat (sender text : String) (ts : Nat)
  | kicked (reason : String)
  | roomStatus (enabled : Bool)
  | chatCleared
  | adminAttached (roomId : String) (enabled : Bool)
  | pendingList (entries : List (String × String × Nat))
  | fileMsg (sender url mime name : String)
deriving DecidableEq, Repr

/-- A socket effect: `send(ws, obj)` or `ws.close()`. -/
inductive Output where
  | sendMsg (ws : Nat) (msg : WsMsg)
  | closeConn (ws : Nat)
deriving DecidableEq, Repr

/-- `clientsByRoom.get(roomId)` as a plain list (empty when absent). -/
def membersOf (st : ServerState) (rid : String) : List Nat :=
  (alistLookup st.clientsByRoom rid).getD []

/-- `adminsByRoom.get(roomId)` as a plain list (empty when absent). -/
def adminsOf (st : ServerState) (rid : String) : List Nat :=
  (alistLookup st.adminsByRoom rid).getD []

/-- `broadcastToRoom(roomId, msg)`. -/
def broadcastToRoom (st : ServerState) (rid : String) (m : WsMsg) : List Output :=
  match alistLookup st.clientsByRoom rid with
  | none => []
  | some s => s.map (fun w => Output.sendMsg w m)

/-- `broadcastToAdmins(roomId, msg)`. -/
def broadcastToAdmins (st : ServerState) (rid : String) (m : WsMsg) : List Output :=
  match alistLookup st.adminsByRoom rid with
  | none => []
  | some s => s.map (fun w => Output.sendMsg w m)

/-- `kickRoom(roomId, reason)`: send `kicked` to every member, close each
transport, drop the room's member set. -/
def kickRoom (st : ServerState) (rid reason : String) : ServerState × List Output :=
  match alistLookup st.clientsByRoom rid with
  | none => (st, [])
  | some s =>
      ({ st with clientsByRoom := alistDelete st.clientsByRoom rid },
       (s.map (fun w => [Output.sendMsg w (WsMsg.kicked reason), Output.closeConn w])).flatten)

/-- `denyPendingForRoom(roomId, reason)`: walk the pending map in insertion
order; for each request of that room send an error, close the requester, and
delete the entry. -/
def denyPendingForRoom (p : List (String × PendingReq)) (rid reason : String) :
    List (String × PendingReq) × List Output :=
  match p with
  | [] => ([], [])
  | (k, r) :: rest =>
      let res := denyPendingForRoom rest rid reason
      if r.roomId = rid then
        (res.1, [Output.sendMsg r.connId (WsMsg.errMsg reason), Output.closeConn r.connId]
                ++ res.2)
      else ((k, r) :: res.1, res.2)

/-- An HTTP handler's reply. -/
inductive ApiResp where
  | ok
  | okUrl (url : String)
  | errorResp (status : Nat) (error : String)
deriving DecidableEq, Repr

/-- Update the per-socket fields of connection `c` (assignment to `ws.xxx`). -/
def setConn (st : ServerState) (c : Nat) (f : ConnState → ConnState) : ServerState :=
  { st with conns :=
      match alistLookup st.conns c with
      | none => st.conns
      | some cs => alistSet st.conns c (f cs) }

/-- `app.post("/api/admin/create-room")`. -/
def createRoom (st : ServerState) (roomId roomPassword adminPassword : String) :
    ServerState × ApiResp :=
  if roomId = "" ∨ roomPassword = "" ∨ adminPassword = "" then
    (st, .errorResp 400 "Missing fields")
  else
    match getRoom st roomId with
    | some _ => (st, .errorResp 409 "Room already exists")
    | none =>
        ({ st with rooms :=
            st.rooms ++ [⟨roomId, bcryptHash roomPassword, bcryptHash adminPassword, true⟩] },
         .ok)

/-- `app.post("/api/admin/action")`: enable / disable / clear after admin
passphrase verification. -/
def adminAction (st : ServerState) (roomId adminPassword action : String) :
    ServerState × List Output × ApiResp :=
  if roomId = "" ∨ adminPassword = "" ∨ action = "" then
    (st, [], .errorResp 400 "Missing fields")
  else
    match getRoom st roomId with
    | none => (st, [], .errorResp 404 "Room not found")
    | some room =>
        if ¬ bcryptCompare adminPassword room.adminPassHash then
          (st, [], .errorResp 403 "Wrong admin password")
        else if action = "enable" then
          let st2 := setRoomEnabled st roomId true
          (st2, broadcastToRoom st2 roomId (.roomStatus true)
                ++ broadcastToAdmins st2 roomId (.roomStatus true), .ok)
        else if action = "disable" then
          let st2 := setRoomEnabled st roomId false
          let o1 := broadcastToAdmins st2 roomId (.roomStatus false)
          let kr := kickRoom st2 roomId "Room disabled by admin"
          let dp := denyPendingForRoom kr.1.pending roomId "Room disabled by admin"
          ({ kr.1 with pending := dp.1 }, o1 ++ kr.2 ++ dp.2, .ok)
        else if action = "clear" then
          let st2 := clearChat st roomId
          (st2, broadcastToRoom st2 roomId .chatCleared
                ++ broadcastToAdmins st2 roomId .chatCleared, .ok)
        else (st, [], .errorResp 400 "Unknown action")

/-- The `admin-attach` message handler. -/
def handleAdminAttach (st : ServerState) (c : Nat) (roomIdRaw adminPassword senderRaw : String) :
    ServerState × List Output :=
  let roomId := jsTrim roomIdRaw
  let sender := jsSlice20 (jsOr senderRaw "Admin")
  match getRoom st roomId with
  | none => (st, [Output.sendMsg c (.errMsg "Room not found")])
  | some room =>
      if ¬ bcryptCompare adminPassword room.adminPassHash then
        (st, [Output.sendMsg c (.errMsg "Wrong admin password")])
      else
        let st2 := setConn st c
          (fun cs => { cs with isAdmin := true, roomId := some roomId, sender := sender })
        let st3 := { st2 with adminsByRoom := addTo st2.adminsByRoom roomId c }
        let st4 := { st3 with clientsByRoom := addTo st3.clientsByRoom roomId c }
        let pend := (st4.pending.filter (fun kr => kr.2.roomId == roomId)).map
          (fun kr => (kr.1, kr.2.sender, kr.2.createdAt))
        (st4,
         [Output.sendMsg c (.adminAttached roomId room.enabled),
          Output.sendMsg c (.pendingList pend),
          Output.sendMsg c (.history (getHistory st4 roomId 200))]
         ++ broadcastToRoom st4 roomId (.system (sender ++ " (admin) joined.")))

/-- The `request-join` message handler.  `reqId` stands for the value of
`makeId()` (random hex), supplied by the environment; `t` for `now()`. -/
def handleRequestJoin (st : ServerState) (c : Nat)
    (roomIdRaw roomPassword senderRaw reqId : String) (t : Nat) :
    ServerState × List Output :=
  let roomId := jsTrim roomIdRaw
  let sender := jsSlice20 (jsOr senderRaw "User")
  match getRoom st roomId with
  | none => (st, [Output.sendMsg c (.errMsg "Room not found")])
  | some room =>
      if ¬ room.enabled then (st, [Output.sendMsg c (.errMsg "Room disabled")])
      else if ¬ bcryptCompare roomPassword room.roomPassHash then
        (st, [Output.sendMsg c (.errMsg "Wrong passkey")])
      else
        let st2 := setConn st c (fun cs => { cs with sender := sender })
        let st3 := { st2 with pending := alistSet st2.pending reqId ⟨c, roomId, sender, t⟩ }
        (st3, [Output.sendMsg c (.waiting reqId)]
              ++ broadcastToAdmins st3 roomId (.joinRequest reqId sender t))

/-- The `approve` / `deny` message handler (`isApprove` selects the branch). -/
def handleApproveDeny (st : ServerState) (c : Nat) (isApprove : Bool) (reqId : String) :
    ServerState × List Output :=
  match alistLookup st.conns c with
  | none => (st, [])
  | some cs =>
      match cs.isAdmin, cs.roomId with
      | true, some wsRoom =>
          match alistLookup st.pending reqId with
          | none => (st, [Output.sendMsg c (.errMsg "Request not found")])
          | some req =>
              if req.roomId ≠ wsRoom then (st, [Output.sendMsg c (.errMsg "Wrong room")])
              else
                let st2 := { st with pending := alistDelete st.pending reqId }
                let o1 := broadcastToAdmins st2 req.roomId (.joinRequestClosed reqId)
                if ¬ isApprove then
                  (st2, o1 ++ [Output.sendMsg req.connId .joinDenied,
                               Output.closeConn req.connId])
                else
                  let st3 := setConn st2 req.connId (fun r => { r with roomId := some req.roomId })
                  let st4 := { st3 with clientsByRoom := addTo st3.clientsByRoom req.roomId req.connId }
                  (st4, o1 ++ [Output.sendMsg req.connId (.joined req.roomId),
                               Output.sendMsg req.connId (.history (getHistory st4 req.roomId 200))]
                        ++ broadcastToRoom st4 req.roomId (.system (req.sender ++ " joined.")))
      | _, _ => (st, [Output.sendMsg c (.errMsg "Not admin")])

/-- The `chat` message handler; `t` stands for `now()`. -/
def handleChat (st : ServerState) (c : Nat) (textRaw : String) (t : Nat) :
    ServerState × List Output :=
  match alistLookup st.conns c with
  | none => (st, [])
  | some cs =>
      match cs.roomId with
      | none => (st, [Output.sendMsg c (.errMsg "Not joined")])
      | some rid =>
          match getRoom st rid with
          | none => (st, [Output.sendMsg c (.errMsg "Room disabled"), Output.closeConn c])
          | some room =>
              if ¬ room.enabled then
                (st, [Output.sendMsg c (.errMsg "Room disabled"), Output.closeConn c])
              else
                let text := jsTrim textRaw
                if text = "" then (st, [])
                else
                  let st2 := addText st rid cs.sender text t
                  (st2, broadcastToRoom st2 rid (.chat cs.sender text t)
                        ++ broadcastToAdmins st2 rid (.chat cs.sender text t))

/-- The pending-map sweep of the `close` handler: delete every request owned
by `c` and broadcast `join-request-closed` to that room's admins. -/
def sweepPending (admins : RoomMap) (c : Nat) :
    List (String × PendingReq) → List (String × PendingReq) × List Output
  | [] => ([], [])
  | (k, r) :: rest =>
      let res := sweepPending admins c rest
      if r.connId = c then
        (res.1,
         (match alistLookup admins r.roomId with
          | none => []
          | some s => s.map (fun w => Output.sendMsg w (WsMsg.joinRequestClosed k))) ++ res.2)
      else ((k, r) :: res.1, res.2)

/-- The `ws.on("close")` handler: leave both room sets, then cancel every
pending request owned by this connection.  The connection record itself is
destroyed with the socket. -/
def handleClose (st : ServerState) (c : Nat) : ServerState × List Output :=
  let st1 :=
    match alistLookup st.conns c with
    | none => st
    | some cs =>
        match cs.roomId with
        | none => st
        | some rid =>
            { st with clientsByRoom := removeFrom st.clientsByRoom rid c,
                      adminsByRoom := removeFrom st.adminsByRoom rid c }
  let sw := sweepPending st1.adminsByRoom c st1.pending
  ({ st1 with pending := sw.1, conns := alistDelete st1.conns c }, sw.2)

/-- The file carried by an upload request (`req.file` from multer). -/
structure UploadFile where
  tmpPath : String
  mimetype : String
  originalname : String
  filename : String
deriving DecidableEq, Repr

/-- JavaScript `path.extname`: the substring from the last dot, or `""` when
there is no dot or the name starts with its only dot. -/
def lastDotIdx : List Char → Option Nat
  | [] => none
  | ch :: rest =>
      match lastDotIdx rest with
      | some i => some (i + 1)
      | none => if ch = '.' then some 0 else none

/-- JavaScript `path.extname` on a bare file name. -/
def jsExtname (name : String) : String :=
  match lastDotIdx name.data with
  | none => ""
  | some 0 => ""
  | some i => String.mk (name.data.drop i)

/-- `app.post("/api/upload")`.  multer has already stored the blob at
`f.tmpPath` when the handler body runs, so the blob is recorded first; `t`
stands for `now()`. -/
def handleUpload (st : ServerState) (roomId roomPassword senderRaw : String)
    (file : Option UploadFile) (t : Nat) : ServerState × List Output × ApiResp :=
  match file with
  | none => (st, [], .errorResp 400 "No file")
  | some f =>
      let st0 := { st with blobs := st.blobs ++ [f.tmpPath] }
      if roomId = "" ∨ roomPassword = "" then
        (st0, [], .errorResp 400 "Missing room/password")
      else
        match getRoom st0 roomId with
        | none => (st0, [], .errorResp 404 "Room not found")
        | some room =>
            if ¬ room.enabled then (st0, [], .errorResp 403 "Room disabled")
            else if ¬ bcryptCompare roomPassword room.roomPassHash then
              (st0, [], .errorResp 403 "Wrong passkey")
            else
              let mime := jsToLower f.mimetype
              if ¬ (jsStartsWith mime "image/" || jsStartsWith mime "video/"
                    || jsStartsWith mime "audio/") then
                ({ st0 with blobs := st0.blobs.erase f.tmpPath }, [],
                 .errorResp 400 "Only image/video/audio allowed")
              else
                let safeSender := jsSlice20 (jsOr senderRaw "User")
                let original := jsOr f.originalname "file"
                let ext := String.mk ((jsExtname original).data.take 10)
                let newName := f.filename ++ ext
                let fileUrl := "/uploads/" ++ newName
                let st1 := { st0 with blobs := (st0.blobs.erase f.tmpPath) ++ [newName] }
                let st2 := addFile st1 roomId safeSender fileUrl mime original t
                let payload := WsMsg.fileMsg safeSender fileUrl mime original
                (st2, broadcastToRoom st2 roomId payload ++ broadcastToAdmins st2 roomId payload,
                 .okUrl fileUrl)

/-- An inbound event of the whole system (connection lifecycle, control
messages, HTTP calls).  Randomly generated request ids and `now()` values are
inputs from the environment. -/
inductive Event where
  | connect (c : Nat)
  | adminAttach (c : Nat) (roomId adminPassword sender : String)
  | requestJoin (c : Nat) (roomId roomPassword sender reqId : String) (t : Nat)
  | approve (c : Nat) (reqId : String)
  | deny (c : Nat) (reqId : String)
  | chat (c : Nat) (text : String) (t : Nat)
  | close (c : Nat)
  | createRoom (roomId roomPassword adminPassword : String)
  | adminAct (roomId adminPassword action : String)
  | upload (roomId roomPassword sender : String) (file : Option UploadFile) (t : Nat)
deriving Repr

/-- One step of the system: the state reached after handling one event
(`wss.on("connection")` initialises `ws.roomId = null; ws.sender = "User";
ws.isAdmin = false`). -/
def step (st : ServerState) : Event → ServerState
  | .connect c => { st with conns := alistSet st.conns c ⟨none, "User", false⟩ }
  | .adminAttach c r p s => (handleAdminAttach st c r p s).1
  | .requestJoin c r p s q t => (handleRequestJoin st c r p s q t).1
  | .approve c q => (handleApproveDeny st c true q).1
  | .deny c q => (handleApproveDeny st c false q).1
  | .chat c tx t => (handleChat st c tx t).1
  | .close c => (handleClose st c).1
  | .createRoom r rp ap => (createRoom st r rp ap).1
  | .adminAct r p a => (adminAction st r p a).1
  | .upload r p s f t => (handleUpload st r p s f t).1

/-- The empty boot state of the server process. -/
def initState : ServerState := ⟨[], [], [], [], [], [], []⟩

/-- The state reached from boot by a trace of events. -/
def run (evs : List Event) : ServerState := evs.foldl step initState

/-- The key column of an association list. -/
def alistKeys {α β : Type} (m : List (α × β)) : List α := m.map Prod.fst

/-- Concrete fixture: an enabled room `"r1"` (room pass `"p"`, admin pass
`"a"`). -/
def roomA : Room := ⟨"r1", bcryptHash "p", bcryptHash "a", true⟩

/-- Concrete fixture: a second enabled room `"r2"`. -/
def roomB : Room := ⟨"r2", bcryptHash "q", bcryptHash "b", true⟩

/-- Concrete fixture: one text message in each of `"r1"` and `"r2"`. -/
def msgsAB : List MessageRec :=
  [⟨"r1", "alice", "text", some "hi", none, none, none, 10⟩,
   ⟨"r2", "bob", "text", some "yo", none, none, none, 11⟩]

/-- Concrete fixture: rooms `"r1"`/`"r2"`; connection 1 is an attached admin of
`"r1"` (in both sets), connection 0 is anonymous with a pending request `"q1"`
for `"r1"`. -/
def stA : ServerState :=
  ⟨[roomA, roomB], msgsAB, [("r1", [1])], [("r1", [1])],
   [("q1", ⟨0, "r1", "alice", 5⟩)],
   [(1, ⟨some "r1", "Boss", true⟩), (0, ⟨none, "alice", false⟩)], []⟩

/-- Concrete fixture: like `stA` but the pending request targets room `"r2"`
while the admin is attached to `"r1"`. -/
def stB : ServerState :=
  ⟨[roomA, roomB], msgsAB, [("r1", [1])], [("r1", [1])],
   [("q1", ⟨0, "r2", "alice", 5⟩)],
   [(1, ⟨some "r1", "Boss", true⟩), (0, ⟨none, "alice", false⟩)], []⟩

/-- Concrete event trace: create `"r1"`, attach an admin, let connection 0 be
approved into the room, then let the member submit a second join request. -/
def traceC5 : List Event :=
  [.createRoom "r1" "p" "a",
   .connect 0, .connect 1,
   .adminAttach 1 "r1" "a" "Boss",
   .requestJoin 0 "r1" "p" "alice" "req1" 5,
   .approve 1 "req1",
   .requestJoin 0 "r1" "p" "alice" "req2" 7]

/-- The full ordered sequence of not-cleared messages recorded for a room,
oldest first, projected on the history columns.  This is what the spec calls
"the ordered sequence of non-cleared messages previously recorded for that
room". -/
def roomSeq (st : ServerState) (rid : String) : List HistEntry :=
  (roomMessages st.messages rid).map histProj

theorem alistLookup_set_self {α β : Type} [DecidableEq α] (m : List (α × β)) (k : α) (v : β) :
    alistLookup (alistSet m k v) k = some v := by
  induction m with
  | nil => simp [alistSet, alistLookup]
  | cons hd tl ih =>
      obtain ⟨k', v'⟩ := hd
      by_cases h : k' = k
      · simp [alistSet, alistLookup, h]
      · simp [alistSet, alistLookup, h, ih]

theorem alistLookup_set_ne {α β : Type} [DecidableEq α] (m : List (α × β)) (k k' : α) (v : β)
    (h : k' ≠ k) : alistLookup (alistSet m k v) k' = alistLookup m k' := by
  have hne : ¬ k = k' := fun hh => h hh.symm
  induction m with
  | nil => simp [alistSet, alistLookup, hne]
  | cons hd tl ih =>
      obtain ⟨a, b⟩ := hd
      by_cases ha : a = k
      · subst ha
        simp [alistSet, alistLookup, hne]
      · simp only [alistSet, if_neg ha]
        by_cases hb : a = k'
        · simp [alistLookup, hb]
        · simp [alistLookup, hb, ih]

theorem alistLookup_none_of_not_mem {α β : Type} [DecidableEq α] (m : List (α × β)) (k : α)
    (h : k ∉ alistKeys m) : alistLookup m k = none := by
  induction m with
  | nil => simp [alistLookup]
  | cons hd tl ih =>
      obtain ⟨a, b⟩ := hd
      simp only [alistKeys, List.map_cons, List.mem_cons] at h
      push_neg at h
      have ha : ¬ a = k := fun hh => h.1 hh.symm
      simp only [alistLookup, if_neg ha]
      exact ih (by simpa [alistKeys] using h.2)

theorem alistLookup_delete_self {α β : Type} [DecidableEq α] (m : List (α × β)) (k : α)
    (h : (alistKeys m).Nodup) : alistLookup (alistDelete m k) k = none := by
  induction m with
  | nil => simp [alistDelete, alistLookup]
  | cons hd tl ih =>
      obtain ⟨a, b⟩ := hd
      simp only [alistKeys, List.map_cons, List.nodup_cons] at h
      by_cases ha : a = k
      · subst ha
        simp only [alistDelete, if_pos rfl]
        exact alistLookup_none_of_not_mem tl a (by simpa [alistKeys] using h.1)
      · simp [alistDelete, if_neg ha, alistLookup, ha, ih (by simpa [alistKeys] using h.2)]

theorem alistLookup_delete_ne {α β : Type} [DecidableEq α] (m : List (α × β)) (k k' : α)
    (h : k' ≠ k) : alistLookup (alistDelete m k) k' = alistLookup m k' := by
  have hne : ¬ k = k' := fun hh => h hh.symm
  induction m with
  | nil => simp [alistDelete]
  | cons hd tl ih =>
      obtain ⟨a, b⟩ := hd
      by_cases ha : a = k
      · subst ha
        simp [alistDelete, alistLookup, hne]
      · by_cases hb : a = k'
        · subst hb
          simp [alistDelete, alistLookup, h, ha]
        · simp [alistDelete, if_neg ha, alistLookup, hb, ih]

theorem mem_setAdd_self (s : List Nat) (x : Nat) : x ∈ setAdd s x := by
  by_cases h : x ∈ s <;> simp [setAdd, h]

theorem mem_setAdd_of_mem (s : List Nat) (x y : Nat) (h : y ∈ s) : y ∈ setAdd s x := by
  by_cases hx : x ∈ s <;> simp [setAdd, hx, h]

theorem lookup_addTo_self (m : RoomMap) (k : String) (w : Nat) :
    alistLookup (addTo m k w) k = some (setAdd ((alistLookup m k).getD []) w) := by
  unfold addTo
  cases h : alistLookup m k <;> simp [h, alistLookup_set_self]

theorem mem_broadcastToRoom (st : ServerState) (rid : String) (m : WsMsg) (w : Nat)
    (h : w ∈ membersOf st rid) : Output.sendMsg w m ∈ broadcastToRoom st rid m := by
  unfold membersOf at h
  cases hl : alistLookup st.clientsByRoom rid with
  | none => rw [hl] at h; simp at h
  | some s =>
      rw [hl] at h
      simp only [Option.getD_some] at h
      simp only [broadcastToRoom, hl]
      exact List.mem_map.mpr ⟨w, h, rfl⟩

theorem mem_broadcastToAdmins (st : ServerState) (rid : String) (m : WsMsg) (w : Nat)
    (h : w ∈ adminsOf st rid) : Output.sendMsg w m ∈ broadcastToAdmins st rid m := by
  unfold adminsOf at h
  cases hl : alistLookup st.adminsByRoom rid with
  | none => rw [hl] at h; simp at h
  | some s =>
      rw [hl] at h
      simp only [Option.getD_some] at h
      simp only [broadcastToAdmins, hl]
      exact List.mem_map.mpr ⟨w, h, rfl⟩

theorem findRoom_roomId (l : List Room) (rid : String) (r : Room)
    (h : findRoom l rid = some r) : r.roomId = rid := by
  induction l with
  | nil => simp [findRoom] at h
  | cons hd tl ih =>
      by_cases hh : hd.roomId = rid
      · simp [findRoom, hh] at h
        rw [← h]; exact hh
      · simp [findRoom, hh] at h
        exact ih h

theorem findRoom_map_enabled (l : List Room) (rid : String) (r : Room) (e : Bool)
    (h : findRoom l rid = some r) :
    findRoom (l.map (fun x => if x.roomId = rid then { x with enabled := e } else x)) rid
      = some { r with enabled := e } := by
  induction l with
  | nil => simp [findRoom] at h
  | cons hd tl ih =>
      by_cases hh : hd.roomId = rid
      · simp only [findRoom, if_pos hh] at h
        injection h with h
        subst h
        simp [findRoom, List.map_cons, hh]
      · simp only [findRoom, if_neg hh] at h
        simp only [List.map_cons, findRoom, if_neg hh]
        exact ih h

theorem denyPendingForRoom_fst (p : List (String × PendingReq)) (rid reason : String) :
    (denyPendingForRoom p rid reason).1 = p.filter (fun kr => ¬ kr.2.roomId = rid) := by
  induction p with
  | nil => simp [denyPendingForRoom]
  | cons hd tl ih =>
      obtain ⟨k, r⟩ := hd
      by_cases h : r.roomId = rid
      · simp [denyPendingForRoom, h, ih]
      · simp [denyPendingForRoom, h, ih]

theorem denyPendingForRoom_outs (p : List (String × PendingReq)) (rid reason : String)
    (k : String) (r : PendingReq) (hm : (k, r) ∈ p) (hr : r.roomId = rid) :
    Output.sendMsg r.connId (WsMsg.errMsg reason) ∈ (denyPendingForRoom p rid reason).2 ∧
    Output.closeConn r.connId ∈ (denyPendingForRoom p rid reason).2 := by
  induction p with
  | nil => simp at hm
  | cons hd tl ih =>
      obtain ⟨a, b⟩ := hd
      rcases List.mem_cons.mp hm with hh | ht
      · obtain ⟨h1, h2⟩ := Prod.mk.injEq .. ▸ hh
        subst h2
        simp [denyPendingForRoom, hr]
      · by_cases hb : b.roomId = rid
        · simp only [denyPendingForRoom, if_pos hb]
          have := ih ht
          simp [this.1, this.2]
        · simp only [denyPendingForRoom, if_neg hb]
          exact ih ht

theorem requestJoin_success_shape (st : ServerState) (c : Nat)
    (ridRaw pw senderRaw reqId : String) (t : Nat) (room : Room)
    (hr : getRoom st (jsTrim ridRaw) = some room) (he : room.enabled = true)
    (hp : bcryptCompare pw room.roomPassHash = true) :
    handleRequestJoin st c ridRaw pw senderRaw reqId t =
      (let st2 := setConn st c (fun cs => { cs with sender := jsSlice20 (jsOr senderRaw "User") })
       let v : PendingReq := ⟨c, jsTrim ridRaw, jsSlice20 (jsOr senderRaw "User"), t⟩
       let st3 := { st2 with pending := alistSet st2.pending reqId v }
       (st3, [Output.sendMsg c (.waiting reqId)]
             ++ broadcastToAdmins st3 (jsTrim ridRaw)
                  (.joinRequest reqId (jsSlice20 (jsOr senderRaw "User")) t))) := by
  simp only [handleRequestJoin, hr, he, hp]
  simp [setConn]

theorem kickRoom_outs (st : ServerState) (rid reason : String) (w : Nat)
    (h : w ∈ membersOf st rid) :
    Output.sendMsg w (WsMsg.kicked reason) ∈ (kickRoom st rid reason).2 ∧
    Output.closeConn w ∈ (kickRoom st rid reason).2 := by
  unfold membersOf at h
  unfold kickRoom
  cases hl : alistLookup st.clientsByRoom rid with
  | none => rw [hl] at h; simp at h
  | some s =>
      rw [hl] at h
      simp only [Option.getD_some] at h
      constructor <;>
      · simp only [List.mem_flatten]
        exact ⟨[Output.sendMsg w (WsMsg.kicked reason), Output.closeConn w],
               List.mem_map.mpr ⟨w, h, rfl⟩, by simp⟩

theorem approveDeny_success_shape (st : ServerState) (c : Nat) (b : Bool) (reqId : String)
    (cs : ConnState) (req : PendingReq)
    (hc : alistLookup st.conns c = some cs) (ha : cs.isAdmin = true)
    (hw : cs.roomId = some req.roomId)
    (hq : alistLookup st.pending reqId = some req) :
    handleApproveDeny st c b reqId =
      (let st2 : ServerState := { st with pending := alistDelete st.pending reqId }
       let o1 := broadcastToAdmins st2 req.roomId (.joinRequestClosed reqId)
       if b then
         let st3 := setConn st2 req.connId (fun r => { r with roomId := some req.roomId })
         let st4 := { st3 with clientsByRoom := addTo st3.clientsByRoom req.roomId req.connId }
         (st4, o1 ++ [Output.sendMsg req.connId (.joined req.roomId),
                      Output.sendMsg req.connId (.history (getHistory st4 req.roomId 200))]
               ++ broadcastToRoom st4 req.roomId (.system (req.sender ++ " joined.")))
       else
         (st2, o1 ++ [Output.sendMsg req.connId .joinDenied,
                      Output.closeConn req.connId])) := by
  cases b <;> simp [handleApproveDeny, hc, ha, hw, hq]

/-- Claim C4: for every `request-join` control message the preconditions are
checked in this order — the room must exist (else "Room not found"), the room
must be enabled (else "Room disabled", whatever the passphrase), and the
passphrase must verify against the room's passphrase hash (else "Wrong
passkey"); on success the pending request is stored under the freshly
generated id, the requester is told it is waiting, and a `join-request`
notification is broadcast to the admins attached to that room. -/
theorem roomchat_c4 (st : ServerState) (c : Nat) (ridRaw pw senderRaw reqId : String)
    (t : Nat) :
    (getRoom st (jsTrim ridRaw) = none →
      handleRequestJoin st c ridRaw pw senderRaw reqId t
        = (st, [Output.sendMsg c (.errMsg "Room not found")])) ∧
    (∀ room, getRoom st (jsTrim ridRaw) = some room → room.enabled = false →
      handleRequestJoin st c ridRaw pw senderRaw reqId t
        = (st, [Output.sendMsg c (.errMsg "Room disabled")])) ∧
    (∀ room, getRoom st (jsTrim ridRaw) = some room → room.enabled = true →
      bcryptCompare pw room.roomPassHash = false →
      handleRequestJoin st c ridRaw pw senderRaw reqId t
        = (st, [Output.sendMsg c (.errMsg "Wrong passkey")])) ∧
    (∀ room, getRoom st (jsTrim ridRaw) = some room → room.enabled = true →
      bcryptCompare pw room.roomPassHash = true →
      alistLookup (handleRequestJoin st c ridRaw pw senderRaw reqId t).1.pending reqId
          = some ⟨c, jsTrim ridRaw, jsSlice20 (jsOr senderRaw "User"), t⟩ ∧
      Output.sendMsg c (.waiting reqId)
          ∈ (handleRequestJoin st c ridRaw pw senderRaw reqId t).2 ∧
      ∀ w, w ∈ adminsOf st (jsTrim ridRaw) →
        Output.sendMsg w (.joinRequest reqId (jsSlice20 (jsOr senderRaw "User")) t)
          ∈ (handleRequestJoin st c ridRaw pw senderRaw reqId t).2) := by
  refine ⟨?_, ?_, ?_, ?_⟩
  · intro h
    simp [handleRequestJoin, h]
  · intro room h he
    simp [handleRequestJoin, h, he]
  · intro room h he hp
    simp [handleRequestJoin, h, he, hp]
  · intro room h he hp
    rw [requestJoin_success_shape st c ridRaw pw senderRaw reqId t room h he hp]
    refine ⟨?_, ?_, ?_⟩
    · simp only []
      exact alistLookup_set_self _ _ _
    · simp
    · intro w hw
      simp only []
      apply List.mem_append_right
      apply mem_broadcastToAdmins
      exact hw

/-- Witness for C4: the success conjunct evaluated at the concrete fixture
`stA` — connection 2 requesting `"r1"` with the right passphrase gets its
request stored. -/
theorem roomchat_c4_witness :
    alistLookup (handleRequestJoin stA 2 "r1" "p" "carol" "q9" 42).1.pending "q9"
      = some ⟨2, jsTrim "r1", jsSlice20 (jsOr "carol" "User"), 42⟩ :=
  ((roomchat_c4 stA 2 "r1" "p" "carol" "q9" 42).2.2.2 roomA (by decide) (by decide)
    (by decide)).1

theorem sweepPending_fst (admins : RoomMap) (c : Nat) (p : List (String × PendingReq)) :
    (sweepPending admins c p).1 = p.filter (fun kr => ¬ kr.2.connId = c) := by
  induction p with
  | nil => simp [sweepPending]
  | cons hd tl ih =>
      obtain ⟨k, r⟩ := hd
      by_cases h : r.connId = c <;> simp [sweepPending, h, ih]

/-- Claim C1: approving a pending join request, by a connection in admin role
whose attached room matches the request's room, removes the request from the
pending set, broadcasts `join-request-closed` (with the request id) to all
admins of the room, sets the requester's room affiliation, adds it to the
room's member set, sends it `joined` followed by the room's message history,
and broadcasts the system notice "name joined." to the room's members; when
the request's room does not match the admin's room the handler answers the
error "Wrong room" and changes nothing. -/
theorem roomchat_c1 (st : ServerState) (c : Nat) (reqId : String)
    (cs : ConnState) (req : PendingReq) (rcs : ConnState)
    (hc : alistLookup st.conns c = some cs) (ha : cs.isAdmin = true)
    (hq : alistLookup st.pending reqId = some req)
    (hw2 : alistLookup st.conns req.connId = some rcs) :
    (cs.roomId = some req.roomId →
      (handleApproveDeny st c true reqId).1.pending = alistDelete st.pending reqId ∧
      (∀ w, w ∈ adminsOf st req.roomId →
        Output.sendMsg w (.joinRequestClosed reqId) ∈ (handleApproveDeny st c true reqId).2) ∧
      alistLookup (handleApproveDeny st c true reqId).1.conns req.connId
        = some { rcs with roomId := some req.roomId } ∧
      req.connId ∈ membersOf (handleApproveDeny st c true reqId).1 req.roomId ∧
      (∃ pre post, (handleApproveDeny st c true reqId).2
        = pre ++ [Output.sendMsg req.connId (.joined req.roomId),
                  Output.sendMsg req.connId (.history (getHistory st req.roomId 200))] ++ post) ∧
      (∀ w, w ∈ membersOf (handleApproveDeny st c true reqId).1 req.roomId →
        Output.sendMsg w (.system (req.sender ++ " joined."))
          ∈ (handleApproveDeny st c true reqId).2)) ∧
    (∀ R, cs.roomId = some R → req.roomId ≠ R →
      handleApproveDeny st c true reqId = (st, [Output.sendMsg c (.errMsg "Wrong room")])) := by
  constructor
  · intro hw
    rw [approveDeny_success_shape st c true reqId cs req hc ha hw hq]
    simp only [if_true]
    refine ⟨rfl, ?_, ?_, ?_, ?_, ?_⟩
    · intro w hmem
      apply List.mem_append_left
      apply List.mem_append_left
      exact mem_broadcastToAdmins _ req.roomId _ w hmem
    · show alistLookup (setConn { st with pending := alistDelete st.pending reqId }
        req.connId (fun r => { r with roomId := some req.roomId })).conns req.connId = _
      simp only [setConn]
      have : alistLookup ({ st with pending := alistDelete st.pending reqId } : ServerState).conns
          req.connId = some rcs := hw2
      rw [this]
      exact alistLookup_set_self _ _ _
    · show req.connId ∈ (alistLookup (addTo _ req.roomId req.connId) req.roomId).getD []
      rw [lookup_addTo_self]
      exact mem_setAdd_self _ _
    · exact ⟨_, _, rfl⟩
    · intro w hmem
      apply List.mem_append_right
      exact mem_broadcastToRoom _ req.roomId _ w hmem
  · intro R hR hne
    simp [handleApproveDeny, hc, ha, hR, hq, hne]

/-- Witness for C1: at the fixture `stA`, admin connection 1 approving request
`"q1"` removes it from the pending set. -/
theorem roomchat_c1_witness :
    (handleApproveDeny stA 1 true "q1").1.pending = alistDelete stA.pending "q1" :=
  ((roomchat_c1 stA 1 "q1" ⟨some "r1", "Boss", true⟩ ⟨0, "r1", "alice", 5⟩
      ⟨none, "alice", false⟩ (by decide) (by decide) (by decide) (by decide)).1
    (by decide)).1

/-- Claim C2: a pending request is resolved at most once.  An approve or deny
naming an id absent from the pending set fails with "Request not found" and
changes nothing; a successful approve or deny removes the id from the pending
set within the same atomic handler as its terminal side effect; a disconnect
removes every request owned by the closing connection; hence a second approve
or deny naming a just-resolved id fails with "Request not found". -/
theorem roomchat_c2 (c : Nat) (b : Bool) (reqId : String) :
    (∀ st : ServerState, ∀ cs R, alistLookup st.conns c = some cs → cs.isAdmin = true →
      cs.roomId = some R → alistLookup st.pending reqId = none →
      handleApproveDeny st c b reqId
        = (st, [Output.sendMsg c (.errMsg "Request not found")])) ∧
    (∀ st : ServerState, ∀ cs req, alistLookup st.conns c = some cs → cs.isAdmin = true →
      cs.roomId = some req.roomId → alistLookup st.pending reqId = some req →
      (alistKeys st.pending).Nodup →
      alistLookup (handleApproveDeny st c b reqId).1.pending reqId = none) ∧
    (∀ st : ServerState, ∀ k r, (k, r) ∈ (handleClose st c).1.pending → r.connId ≠ c) ∧
    (∀ st : ServerState, ∀ cs req, alistLookup st.conns c = some cs → cs.isAdmin = true →
      cs.roomId = some req.roomId → alistLookup st.pending reqId = some req →
      (alistKeys st.pending).Nodup →
      ∀ c2 cs2 R2 b2, alistLookup (handleApproveDeny st c b reqId).1.conns c2 = some cs2 →
        cs2.isAdmin = true → cs2.roomId = some R2 →
        handleApproveDeny (handleApproveDeny st c b reqId).1 c2 b2 reqId
          = ((handleApproveDeny st c b reqId).1,
             [Output.sendMsg c2 (.errMsg "Request not found")])) := by
  have herr : ∀ st : ServerState, ∀ c' b' cs R, alistLookup st.conns c' = some cs →
      cs.isAdmin = true → cs.roomId = some R → alistLookup st.pending reqId = none →
      handleApproveDeny st c' b' reqId
        = (st, [Output.sendMsg c' (.errMsg "Request not found")]) := by
    intro st c' b' cs R hc ha hR hnone
    simp [handleApproveDeny, hc, ha, hR, hnone]
  have hres : ∀ st : ServerState, ∀ cs req, alistLookup st.conns c = some cs →
      cs.isAdmin = true → cs.roomId = some req.roomId →
      alistLookup st.pending reqId = some req → (alistKeys st.pending).Nodup →
      alistLookup (handleApproveDeny st c b reqId).1.pending reqId = none := by
    intro st cs req hc ha hw hq hnd
    rw [approveDeny_success_shape st c b reqId cs req hc ha hw hq]
    cases b
    · simp only [Bool.false_eq_true, if_false]
      exact alistLookup_delete_self _ _ hnd
    · simp only [if_true]
      show alistLookup (alistDelete st.pending reqId) reqId = none
      exact alistLookup_delete_self _ _ hnd
  refine ⟨fun st cs R hc ha hR hn => herr st c b cs R hc ha hR hn, hres, ?_, ?_⟩
  · intro st k r hmem
    have : (handleClose st c).1.pending
        = ((handleClose st c).1.pending) := rfl
    simp only [handleClose] at hmem
    rw [sweepPending_fst] at hmem
    have := List.mem_filter.mp hmem
    simpa using this.2
  · intro st cs req hc ha hw hq hnd c2 cs2 R2 b2 hc2 ha2 hR2
    exact herr _ c2 b2 cs2 R2 hc2 ha2 hR2 (hres st cs req hc ha hw hq hnd)

/-- Witness for C2: at the fixture `stA`, after admin 1 denies request `"q1"`
the id is gone from the pending set. -/
theorem roomchat_c2_witness :
    alistLookup (handleApproveDeny stA 1 false "q1").1.pending "q1" = none :=
  (roomchat_c2 1 false "q1").2.1 stA ⟨some "r1", "Boss", true⟩ ⟨0, "r1", "alice", 5⟩
    (by decide) (by decide) (by decide) (by decide) (by decide)

theorem roomMessages_cons_pos (hd : MessageRec) (tl : List MessageRec) (rid : String)
    (h : hd.roomId = rid) : roomMessages (hd :: tl) rid = hd :: roomMessages tl rid := by
  simp [roomMessages, List.filter_cons, h]

theorem roomMessages_cons_neg (hd : MessageRec) (tl : List MessageRec) (rid : String)
    (h : ¬ hd.roomId = rid) : roomMessages (hd :: tl) rid = roomMessages tl rid := by
  simp [roomMessages, List.filter_cons, h]

theorem roomMessages_clear_self (msgs : List MessageRec) (rid : String) :
    roomMessages (msgs.filter (fun m => ¬ m.roomId == rid)) rid = [] := by
  induction msgs with
  | nil => rfl
  | cons hd tl ih =>
      rw [List.filter_cons]
      by_cases h : hd.roomId = rid
      · rw [if_neg (by simp [h])]
        exact ih
      · rw [if_pos (by simp [h]), roomMessages_cons_neg hd _ rid h]
        exact ih

theorem roomMessages_clear_other (msgs : List MessageRec) (rid other : String)
    (h : other ≠ rid) :
    roomMessages (msgs.filter (fun m => ¬ m.roomId == rid)) other = roomMessages msgs other := by
  induction msgs with
  | nil => rfl
  | cons hd tl ih =>
      rw [List.filter_cons]
      by_cases h1 : hd.roomId = rid
      · have h2 : ¬ hd.roomId = other := by
          rw [h1]; exact fun hh => h hh.symm
        rw [if_neg (by simp [h1]), roomMessages_cons_neg hd tl other h2]
        exact ih
      · rw [if_pos (by simp [h1])]
        by_cases h2 : hd.roomId = other
        · rw [roomMessages_cons_pos hd _ other h2, roomMessages_cons_pos hd tl other h2, ih]
        · rw [roomMessages_cons_neg hd _ other h2, roomMessages_cons_neg hd tl other h2, ih]

/-- Claim C8: a chat message whose text trims to empty is silently dropped —
the joined sender gets no reply, nothing is broadcast, and no record is
persisted; a non-empty trimmed text from a connection affiliated to an enabled
room is persisted (with the connection's fixed sender name) and then broadcast
to the room's members and admins. -/
theorem roomchat_c8 (st : ServerState) (c : Nat) (textRaw : String) (t : Nat)
    (cs : ConnState) (rid : String) (room : Room)
    (hc : alistLookup st.conns c = some cs) (hr : cs.roomId = some rid)
    (hroom : getRoom st rid = some room) (he : room.enabled = true) :
    (jsTrim textRaw = "" → handleChat st c textRaw t = (st, [])) ∧
    (jsTrim textRaw ≠ "" →
      (handleChat st c textRaw t).1.messages
        = st.messages ++ [⟨rid, cs.sender, "text", some (jsTrim textRaw), none, none, none, t⟩] ∧
      (∀ w, w ∈ membersOf st rid →
        Output.sendMsg w (.chat cs.sender (jsTrim textRaw) t) ∈ (handleChat st c textRaw t).2) ∧
      (∀ w, w ∈ adminsOf st rid →
        Output.sendMsg w (.chat cs.sender (jsTrim textRaw) t) ∈ (handleChat st c textRaw t).2)) := by
  constructor
  · intro hempty
    simp [handleChat, hc, hr, hroom, he, hempty]
  · intro hne
    have hshape : handleChat st c textRaw t =
        (addText st rid cs.sender (jsTrim textRaw) t,
         broadcastToRoom (addText st rid cs.sender (jsTrim textRaw) t) rid
             (.chat cs.sender (jsTrim textRaw) t)
           ++ broadcastToAdmins (addText st rid cs.sender (jsTrim textRaw) t) rid
             (.chat cs.sender (jsTrim textRaw) t)) := by
      simp [handleChat, hc, hr, hroom, he, hne]
    rw [hshape]
    refine ⟨rfl, ?_, ?_⟩
    · intro w hmem
      exact List.mem_append_left _ (mem_broadcastToRoom _ rid _ w hmem)
    · intro w hmem
      exact List.mem_append_right _ (mem_broadcastToAdmins _ rid _ w hmem)

/-- Witness for C8: at the fixture `stA`, member connection 1 sending a text
that trims to "hi" appends exactly that record. -/
theorem roomchat_c8_witness :
    (handleChat stA 1 " hi " 99).1.messages
      = stA.messages ++ [⟨"r1", "Boss", "text", some (jsTrim " hi "), none, none, none, 99⟩] :=
  ((roomchat_c8 stA 1 " hi " 99 ⟨some "r1", "Boss", true⟩ "r1" roomA
      (by decide) (by decide) (by decide) (by decide)).2 (by decide)).1

theorem kickRoom_fst_pending (st : ServerState) (rid reason : String) :
    (kickRoom st rid reason).1.pending = st.pending := by
  unfold kickRoom
  cases h : alistLookup st.clientsByRoom rid <;> simp

theorem kickRoom_fst_rooms (st : ServerState) (rid reason : String) :
    (kickRoom st rid reason).1.rooms = st.rooms := by
  unfold kickRoom
  cases h : alistLookup st.clientsByRoom rid <;> simp

theorem kickRoom_fst_conns (st : ServerState) (rid reason : String) :
    (kickRoom st rid reason).1.conns = st.conns := by
  unfold kickRoom
  cases h : alistLookup st.clientsByRoom rid <;> simp

theorem kickRoom_fst_admins (st : ServerState) (rid reason : String) :
    (kickRoom st rid reason).1.adminsByRoom = st.adminsByRoom := by
  unfold kickRoom
  cases h : alistLookup st.clientsByRoom rid <;> simp

theorem kickRoom_fst_messages (st : ServerState) (rid reason : String) :
    (kickRoom st rid reason).1.messages = st.messages := by
  unfold kickRoom
  cases h : alistLookup st.clientsByRoom rid <;> simp

/-- Claim C7: the clear action (after admin-passphrase verification) deletes
all message records of the target room and only of that room, broadcasts
`chat-cleared` to the room's members and admins, and leaves the member set,
the admin set and the rooms table (hence the enabled flag) unchanged. -/
theorem roomchat_c7 (st : ServerState) (roomId ap : String) (room : Room)
    (hrid : roomId ≠ "") (hap : ap ≠ "")
    (hroom : getRoom st roomId = some room)
    (hpass : bcryptCompare ap room.adminPassHash = true) :
    roomMessages (adminAction st roomId ap "clear").1.messages roomId = [] ∧
    (∀ other, other ≠ roomId →
      roomMessages (adminAction st roomId ap "clear").1.messages other
        = roomMessages st.messages other) ∧
    (∀ w, w ∈ membersOf st roomId →
      Output.sendMsg w .chatCleared ∈ (adminAction st roomId ap "clear").2.1) ∧
    (∀ w, w ∈ adminsOf st roomId →
      Output.sendMsg w .chatCleared ∈ (adminAction st roomId ap "clear").2.1) ∧
    (adminAction st roomId ap "clear").1.clientsByRoom = st.clientsByRoom ∧
    (adminAction st roomId ap "clear").1.adminsByRoom = st.adminsByRoom ∧
    (adminAction st roomId ap "clear").1.rooms = st.rooms ∧
    (adminAction st roomId ap "clear").2.2 = .ok := by
  have hshape : adminAction st roomId ap "clear" =
      (clearChat st roomId,
       broadcastToRoom (clearChat st roomId) roomId .chatCleared
         ++ broadcastToAdmins (clearChat st roomId) roomId .chatCleared, .ok) := by
    simp [adminAction, hrid, hap, hroom, hpass]
  rw [hshape]
  refine ⟨roomMessages_clear_self _ _, fun o ho => roomMessages_clear_other _ _ o ho,
          ?_, ?_, rfl, rfl, rfl, rfl⟩
  · intro w hmem
    exact List.mem_append_left _ (mem_broadcastToRoom _ roomId _ w hmem)
  · intro w hmem
    exact List.mem_append_right _ (mem_broadcastToAdmins _ roomId _ w hmem)

/-- Witness for C7: clearing `"r1"` at the fixture `stA` leaves no `"r1"`
message records. -/
theorem roomchat_c7_witness :
    roomMessages (adminAction stA "r1" "a" "clear").1.messages "r1" = [] :=
  (roomchat_c7 stA "r1" "a" roomA (by decide) (by decide) (by decide) (by decide)).1

theorem disable_shape (st : ServerState) (roomId ap : String) (room : Room)
    (hrid : roomId ≠ "") (hap : ap ≠ "")
    (hroom : getRoom st roomId = some room)
    (hpass : bcryptCompare ap room.adminPassHash = true) :
    adminAction st roomId ap "disable" =
      ({ (kickRoom (setRoomEnabled st roomId false) roomId "Room disabled by admin").1 with
           pending := (denyPendingForRoom
             (kickRoom (setRoomEnabled st roomId false) roomId "Room disabled by admin").1.pending
             roomId "Room disabled by admin").1 },
       broadcastToAdmins (setRoomEnabled st roomId false) roomId (.roomStatus false)
         ++ (kickRoom (setRoomEnabled st roomId false) roomId "Room disabled by admin").2
         ++ (denyPendingForRoom
             (kickRoom (setRoomEnabled st roomId false) roomId "Room disabled by admin").1.pending
             roomId "Room disabled by admin").2,
       .ok) := by
  simp [adminAction, hrid, hap, hroom, hpass]

/-- Claim C3: disable (after admin-passphrase verification) sets the room's
enabled flag to false, broadcasts room-status(enabled=false) to the room's
admins, sends every current member a kicked notice and closes its transport,
sends every connection with a pending request for the room an error notice,
closes it, and removes those requests from the pending set; afterwards a new
join request for the room is rejected with "Room disabled" and a chat message
into the room is refused rather than persisted or broadcast. -/
theorem roomchat_c3 (st : ServerState) (roomId ap : String) (room : Room)
    (hrid : roomId ≠ "") (hap : ap ≠ "")
    (hroom : getRoom st roomId = some room)
    (hpass : bcryptCompare ap room.adminPassHash = true) :
    getRoom (adminAction st roomId ap "disable").1 roomId
        = some { room with enabled := false } ∧
    (∀ w, w ∈ adminsOf st roomId →
      Output.sendMsg w (.roomStatus false) ∈ (adminAction st roomId ap "disable").2.1) ∧
    (∀ w, w ∈ membersOf st roomId →
      Output.sendMsg w (.kicked "Room disabled by admin")
          ∈ (adminAction st roomId ap "disable").2.1 ∧
      Output.closeConn w ∈ (adminAction st roomId ap "disable").2.1) ∧
    (∀ k r, (k, r) ∈ st.pending → r.roomId = roomId →
      Output.sendMsg r.connId (.errMsg "Room disabled by admin")
          ∈ (adminAction st roomId ap "disable").2.1 ∧
      Output.closeConn r.connId ∈ (adminAction st roomId ap "disable").2.1) ∧
    (adminAction st roomId ap "disable").1.pending
        = st.pending.filter (fun kr => ¬ kr.2.roomId = roomId) ∧
    (∀ c ridRaw pw senderRaw reqId t, jsTrim ridRaw = roomId →
      handleRequestJoin (adminAction st roomId ap "disable").1 c ridRaw pw senderRaw reqId t
        = ((adminAction st roomId ap "disable").1,
           [Output.sendMsg c (.errMsg "Room disabled")])) ∧
    (∀ c cs textRaw t, alistLookup (adminAction st roomId ap "disable").1.conns c = some cs →
      cs.roomId = some roomId →
      handleChat (adminAction st roomId ap "disable").1 c textRaw t
        = ((adminAction st roomId ap "disable").1,
           [Output.sendMsg c (.errMsg "Room disabled"), Output.closeConn c])) := by
  rw [disable_shape st roomId ap room hrid hap hroom hpass]
  have hrooms :
      ({ (kickRoom (setRoomEnabled st roomId false) roomId "Room disabled by admin").1 with
           pending := (denyPendingForRoom
             (kickRoom (setRoomEnabled st roomId false) roomId "Room disabled by admin").1.pending
             roomId "Room disabled by admin").1 } : ServerState).rooms
        = st.rooms.map (fun r => if r.roomId = roomId then { r with enabled := false } else r) :=
    kickRoom_fst_rooms _ _ _
  have hget :
      getRoom ({ (kickRoom (setRoomEnabled st roomId false) roomId "Room disabled by admin").1 with
           pending := (denyPendingForRoom
             (kickRoom (setRoomEnabled st roomId false) roomId "Room disabled by admin").1.pending
             roomId "Room disabled by admin").1 } : ServerState) roomId
        = some { room with enabled := false } := by
    unfold getRoom
    rw [hrooms]
    exact findRoom_map_enabled _ _ _ _ hroom
  refine ⟨hget, ?_, ?_, ?_, ?_, ?_, ?_⟩
  · intro w hmem
    apply List.mem_append_left
    apply List.mem_append_left
    exact mem_broadcastToAdmins _ roomId _ w hmem
  · intro w hmem
    have hk := kickRoom_outs (setRoomEnabled st roomId false) roomId "Room disabled by admin" w hmem
    exact ⟨List.mem_append_left _ (List.mem_append_right _ hk.1),
           List.mem_append_left _ (List.mem_append_right _ hk.2)⟩
  · intro k r hmem hrm
    have hmem2 : (k, r) ∈ (kickRoom (setRoomEnabled st roomId false) roomId
        "Room disabled by admin").1.pending := by
      rw [kickRoom_fst_pending]
      exact hmem
    have hd := denyPendingForRoom_outs _ roomId "Room disabled by admin" k r hmem2 hrm
    exact ⟨List.mem_append_right _ hd.1, List.mem_append_right _ hd.2⟩
  · show (denyPendingForRoom _ roomId "Room disabled by admin").1 = _
    rw [denyPendingForRoom_fst, kickRoom_fst_pending]
    rfl
  · intro c ridRaw pw senderRaw reqId t hjt
    simp [handleRequestJoin, hjt, hget]
  · intro c cs textRaw t hc hcs
    simp [handleChat, hc, hcs, hget]

/-- Witness for C3: disabling `"r1"` at the fixture `stA` flips its enabled
flag off in the rooms table. -/
theorem roomchat_c3_witness :
    getRoom (adminAction stA "r1" "a" "disable").1 "r1"
      = some { roomA with enabled := false } :=
  (roomchat_c3 stA "r1" "a" roomA (by decide) (by decide) (by decide) (by decide)).1

theorem getHistory_eq (st : ServerState) (rid : String) (n : Nat) :
    getHistory st rid n = (roomSeq st rid).take n := by
  unfold getHistory roomSeq
  rw [List.map_take]

theorem adminAttach_success_shape (st : ServerState) (c : Nat)
    (ridRaw ap senderRaw : String) (room : Room)
    (hroom : getRoom st (jsTrim ridRaw) = some room)
    (hpass : bcryptCompare ap room.adminPassHash = true) :
    handleAdminAttach st c ridRaw ap senderRaw =
      (let sender := jsSlice20 (jsOr senderRaw "Admin")
       let st2 := setConn st c
         (fun cs => { cs with isAdmin := true, roomId := some (jsTrim ridRaw), sender := sender })
       let st3 := { st2 with adminsByRoom := addTo st2.adminsByRoom (jsTrim ridRaw) c }
       let st4 := { st3 with clientsByRoom := addTo st3.clientsByRoom (jsTrim ridRaw) c }
       (st4,
        [Output.sendMsg c (.adminAttached (jsTrim ridRaw) room.enabled),
         Output.sendMsg c (.pendingList
           ((st4.pending.filter (fun kr => kr.2.roomId == jsTrim ridRaw)).map
             (fun kr => (kr.1, kr.2.sender, kr.2.createdAt)))),
         Output.sendMsg c (.history (getHistory st4 (jsTrim ridRaw) 200))]
        ++ broadcastToRoom st4 (jsTrim ridRaw) (.system (sender ++ " (admin) joined.")))) := by
  simp [handleAdminAttach, hroom, hpass]

/-- Claim C6: the history sent on admin-attach and on approve equals the
ordered sequence of non-cleared messages recorded for the room, oldest first
(insertion order, not reversed), truncated to the first 200 entries: it is the
prefix of `roomSeq`, has length at most 200, and equals the full sequence
whenever the room holds at most 200 messages. -/
theorem roomchat_c6 (st : ServerState) (c : Nat) (rid : String) :
    (∀ ridRaw ap senderRaw room, jsTrim ridRaw = rid →
      getRoom st rid = some room → bcryptCompare ap room.adminPassHash = true →
      Output.sendMsg c (.history ((roomSeq st rid).take 200))
        ∈ (handleAdminAttach st c ridRaw ap senderRaw).2) ∧
    (∀ reqId cs req, alistLookup st.conns c = some cs → cs.isAdmin = true →
      cs.roomId = some req.roomId → alistLookup st.pending reqId = some req →
      req.roomId = rid →
      Output.sendMsg req.connId (.history ((roomSeq st rid).take 200))
        ∈ (handleApproveDeny st c true reqId).2) ∧
    (roomSeq st rid).take 200 ++ (roomSeq st rid).drop 200 = roomSeq st rid ∧
    ((roomSeq st rid).take 200).length ≤ 200 ∧
    ((roomSeq st rid).length ≤ 200 → (roomSeq st rid).take 200 = roomSeq st rid) := by
  refine ⟨?_, ?_, List.take_append_drop 200 _, ?_, fun h => List.take_of_length_le h⟩
  · intro ridRaw ap senderRaw room hjt hroom hpass
    subst hjt
    rw [adminAttach_success_shape st c ridRaw ap senderRaw room hroom hpass]
    apply List.mem_append_left
    have hh : Output.sendMsg c (WsMsg.history ((roomSeq st (jsTrim ridRaw)).take 200))
        = Output.sendMsg c (WsMsg.history (getHistory st (jsTrim ridRaw) 200)) := by
      rw [getHistory_eq]
    rw [hh]
    simp only [List.mem_cons]
    right; right; left
    rfl
  · intro reqId cs req hc ha hw hq hr
    subst hr
    rw [approveDeny_success_shape st c true reqId cs req hc ha hw hq]
    simp only [if_true]
    apply List.mem_append_left
    apply List.mem_append_right
    have hh : Output.sendMsg req.connId (WsMsg.history ((roomSeq st req.roomId).take 200))
        = Output.sendMsg req.connId (WsMsg.history (getHistory st req.roomId 200)) := by
      rw [getHistory_eq]
    rw [hh]
    simp only [List.mem_cons]
    right; left
    rfl
  · have := List.length_take 200 (roomSeq st rid)
    omega

/-- Witness for C6: at the fixture `stA` (one `"r1"` message), approving
`"q1"` sends the requester the full one-element `"r1"` history. -/
theorem roomchat_c6_witness :
    Output.sendMsg 0 (.history ((roomSeq stA "r1").take 200))
      ∈ (handleApproveDeny stA 1 true "q1").2 :=
  (roomchat_c6 stA 1 "r1").2.1 "q1" ⟨some "r1", "Boss", true⟩ ⟨0, "r1", "alice", 5⟩
    (by decide) (by decide) (by decide) (by decide) (by decide)

theorem jsSlice20_length (s : String) : (jsSlice20 s).length ≤ 20 := by
  show (s.data.take 20).length ≤ 20
  rw [List.length_take]
  omega

/-- Claim C9: an upload whose declared media type does not begin with
"image/", "video/" or "audio/" (case-insensitively) is rejected with a
validation error, the stored blob is deleted and no message record is created;
an accepted upload stores and broadcasts the sender name truncated to at most
20 characters. -/
theorem roomchat_c9 (st : ServerState) (roomId roomPassword senderRaw : String)
    (f : UploadFile) (t : Nat) (room : Room)
    (hrid : roomId ≠ "") (hpw : roomPassword ≠ "")
    (hroom : getRoom st roomId = some room) (he : room.enabled = true)
    (hp : bcryptCompare roomPassword room.roomPassHash = true) :
    ((jsStartsWith (jsToLower f.mimetype) "image/"
        || jsStartsWith (jsToLower f.mimetype) "video/"
        || jsStartsWith (jsToLower f.mimetype) "audio/") = false →
      (handleUpload st roomId roomPassword senderRaw (some f) t).2.2
          = .errorResp 400 "Only image/video/audio allowed" ∧
      (handleUpload st roomId roomPassword senderRaw (some f) t).1.messages = st.messages ∧
      (handleUpload st roomId roomPassword senderRaw (some f) t).2.1 = [] ∧
      (f.tmpPath ∉ st.blobs →
        (handleUpload st roomId roomPassword senderRaw (some f) t).1.blobs = st.blobs)) ∧
    ((jsStartsWith (jsToLower f.mimetype) "image/"
        || jsStartsWith (jsToLower f.mimetype) "video/"
        || jsStartsWith (jsToLower f.mimetype) "audio/") = true →
      ∃ url,
        (handleUpload st roomId roomPassword senderRaw (some f) t).2.2 = .okUrl url ∧
        (handleUpload st roomId roomPassword senderRaw (some f) t).1.messages
          = st.messages ++ [⟨roomId, jsSlice20 (jsOr senderRaw "User"), "file", none, some url,
                             some (jsToLower f.mimetype), some (jsOr f.originalname "file"), t⟩] ∧
        (∀ w, w ∈ membersOf st roomId →
          Output.sendMsg w (.fileMsg (jsSlice20 (jsOr senderRaw "User")) url
              (jsToLower f.mimetype) (jsOr f.originalname "file"))
            ∈ (handleUpload st roomId roomPassword senderRaw (some f) t).2.1) ∧
        (jsSlice20 (jsOr senderRaw "User")).length ≤ 20) := by
  constructor
  · intro hmime
    have hshape : handleUpload st roomId roomPassword senderRaw (some f) t =
        ({ st with blobs := (st.blobs ++ [f.tmpPath]).erase f.tmpPath }, [],
         .errorResp 400 "Only image/video/audio allowed") := by
      simp [handleUpload, hrid, hpw, getRoom, hroom, he, hp, hmime]
      simp [getRoom] at hroom
      simp [hroom, he, hp]
    rw [hshape]
    refine ⟨rfl, rfl, rfl, ?_⟩
    intro hnotin
    show (st.blobs ++ [f.tmpPath]).erase f.tmpPath = st.blobs
    rw [List.erase_append_right _ hnotin]
    simp
  · intro hmime
    have hshape : handleUpload st roomId roomPassword senderRaw (some f) t =
        (addFile { st with blobs := ((st.blobs ++ [f.tmpPath]).erase f.tmpPath)
              ++ [f.filename ++ String.mk ((jsExtname (jsOr f.originalname "file")).data.take 10)] }
           roomId (jsSlice20 (jsOr senderRaw "User"))
           ("/uploads/" ++ (f.filename ++ String.mk ((jsExtname (jsOr f.originalname "file")).data.take 10)))
           (jsToLower f.mimetype) (jsOr f.originalname "file") t,
         broadcastToRoom (addFile { st with blobs := ((st.blobs ++ [f.tmpPath]).erase f.tmpPath)
              ++ [f.filename ++ String.mk ((jsExtname (jsOr f.originalname "file")).data.take 10)] }
             roomId (jsSlice20 (jsOr senderRaw "User"))
             ("/uploads/" ++ (f.filename ++ String.mk ((jsExtname (jsOr f.originalname "file")).data.take 10)))
             (jsToLower f.mimetype) (jsOr f.originalname "file") t)
           roomId (.fileMsg (jsSlice20 (jsOr senderRaw "User"))
             ("/uploads/" ++ (f.filename ++ String.mk ((jsExtname (jsOr f.originalname "file")).data.take 10)))
             (jsToLower f.mimetype) (jsOr f.originalname "file"))
         ++ broadcastToAdmins (addFile { st with blobs := ((st.blobs ++ [f.tmpPath]).erase f.tmpPath)
              ++ [f.filename ++ String.mk ((jsExtname (jsOr f.originalname "file")).data.take 10)] }
             roomId (jsSlice20 (jsOr senderRaw "User"))
             ("/uploads/" ++ (f.filename ++ String.mk ((jsExtname (jsOr f.originalname "file")).data.take 10)))
             (jsToLower f.mimetype) (jsOr f.originalname "file") t)
           roomId (.fileMsg (jsSlice20 (jsOr senderRaw "User"))
             ("/uploads/" ++ (f.filename ++ String.mk ((jsExtname (jsOr f.originalname "file")).data.take 10)))
             (jsToLower f.mimetype) (jsOr f.originalname "file")),
         .okUrl ("/uploads/" ++ (f.filename ++ String.mk ((jsExtname (jsOr f.originalname "file")).data.take 10)))) := by
      simp [handleUpload, hrid, hpw, getRoom, hroom, he, hp, hmime]
      simp [getRoom] at hroom
      simp [hroom, he, hp]
    rw [hshape]
    refine ⟨_, rfl, rfl, ?_, jsSlice20_length _⟩
    intro w hmem
    exact List.mem_append_left _ (mem_broadcastToRoom _ roomId _ w hmem)

/-- Witness for C9: an `"application/pdf"` upload into `"r1"` at the fixture
`stA` is rejected and persists no message record. -/
theorem roomchat_c9_witness :
    (handleUpload stA "r1" "p" "carol" (some ⟨"/tmp/u1", "application/pdf", "doc.pdf", "x1"⟩)
        77).2.2 = .errorResp 400 "Only image/video/audio allowed" :=
  ((roomchat_c9 stA "r1" "p" "carol" ⟨"/tmp/u1", "application/pdf", "doc.pdf", "x1"⟩ 77 roomA
      (by decide) (by decide) (by decide) (by decide) (by decide)).1 (by decide)).1

/-- Claim C10: a successful admin-attach adds the connection to both the
room's admin set and the room's member set; consequently a later disable of
the room (with valid admin credentials) sends that attached admin connection
the kicked notice and closes its transport along with the other members. -/
theorem roomchat_c10 (st : ServerState) (c : Nat) (ridRaw ap senderRaw : String) (room : Room)
    (hroom : getRoom st (jsTrim ridRaw) = some room)
    (hpass : bcryptCompare ap room.adminPassHash = true) :
    c ∈ adminsOf (handleAdminAttach st c ridRaw ap senderRaw).1 (jsTrim ridRaw) ∧
    c ∈ membersOf (handleAdminAttach st c ridRaw ap senderRaw).1 (jsTrim ridRaw) ∧
    (∀ ap2 room2, jsTrim ridRaw ≠ "" → ap2 ≠ "" →
      getRoom (handleAdminAttach st c ridRaw ap senderRaw).1 (jsTrim ridRaw) = some room2 →
      bcryptCompare ap2 room2.adminPassHash = true →
      Output.sendMsg c (.kicked "Room disabled by admin")
          ∈ (adminAction (handleAdminAttach st c ridRaw ap senderRaw).1
              (jsTrim ridRaw) ap2 "disable").2.1 ∧
      Output.closeConn c
          ∈ (adminAction (handleAdminAttach st c ridRaw ap senderRaw).1
              (jsTrim ridRaw) ap2 "disable").2.1) := by
  have hmemb : c ∈ membersOf (handleAdminAttach st c ridRaw ap senderRaw).1 (jsTrim ridRaw) := by
    rw [adminAttach_success_shape st c ridRaw ap senderRaw room hroom hpass]
    show c ∈ (alistLookup (addTo _ (jsTrim ridRaw) c) (jsTrim ridRaw)).getD []
    rw [lookup_addTo_self]
    exact mem_setAdd_self _ _
  refine ⟨?_, hmemb, ?_⟩
  · rw [adminAttach_success_shape st c ridRaw ap senderRaw room hroom hpass]
    show c ∈ (alistLookup (addTo _ (jsTrim ridRaw) c) (jsTrim ridRaw)).getD []
    rw [lookup_addTo_self]
    exact mem_setAdd_self _ _
  · intro ap2 room2 hne hap2 hroom2 hpass2
    rw [disable_shape _ _ _ room2 hne hap2 hroom2 hpass2]
    have hk := kickRoom_outs
      (setRoomEnabled (handleAdminAttach st c ridRaw ap senderRaw).1 (jsTrim ridRaw) false)
      (jsTrim ridRaw) "Room disabled by admin" c hmemb
    exact ⟨List.mem_append_left _ (List.mem_append_right _ hk.1),
           List.mem_append_left _ (List.mem_append_right _ hk.2)⟩

/-- Witness for C10: attaching connection 7 as admin of `"r1"` at the fixture
`stA` puts it in the `"r1"` admin set. -/
theorem roomchat_c10_witness :
    7 ∈ adminsOf (handleAdminAttach stA 7 "r1" "a" "Root").1 (jsTrim "r1") :=
  (roomchat_c10 stA 7 "r1" "a" "Root" roomA (by decide) (by decide)).1

/-- Counterexample to C5: the trace `traceC5` (create room, attach admin,
request, approve, request again) reaches a state in which connection 0 is a
member of `"r1"` — its affiliation is set and it is in the member set — while
it also owns the outstanding pending request `"req2"`, so a pending request's
owning connection can simultaneously be a member of a room, and a join request
is accepted from a connection that already has a room affiliation. -/
theorem roomchat_c5_counterexample :
    alistLookup (run traceC5).pending "req2" = some ⟨0, "r1", "alice", 7⟩ ∧
    0 ∈ membersOf (run traceC5) "r1" ∧
    alistLookup (run traceC5).conns 0 = some ⟨some "r1", "alice", false⟩ := by
  decide

/-- Claim C5 (amended): the request-join handler checks the room's existence,
enabled flag and passphrase but never the requester's current room
affiliation, so a connection that is already a member of a room can create a
pending request and then simultaneously holds the membership and the
outstanding pending request. -/
theorem roomchat_c5_amended (st : ServerState) (c : Nat)
    (ridRaw pw senderRaw reqId : String) (t : Nat) (room : Room) (R : String)
    (hroom : getRoom st (jsTrim ridRaw) = some room) (he : room.enabled = true)
    (hp : bcryptCompare pw room.roomPassHash = true)
    (hmem : c ∈ membersOf st R) :
    alistLookup (handleRequestJoin st c ridRaw pw senderRaw reqId t).1.pending reqId
        = some ⟨c, jsTrim ridRaw, jsSlice20 (jsOr senderRaw "User"), t⟩ ∧
    c ∈ membersOf (handleRequestJoin st c ridRaw pw senderRaw reqId t).1 R := by
  rw [requestJoin_success_shape st c ridRaw pw senderRaw reqId t room hroom he hp]
  constructor
  · show alistLookup (alistSet _ reqId _) reqId = _
    exact alistLookup_set_self _ _ _
  · exact hmem

/-- Witness for the amended C5: at the state reached by the first six events
of `traceC5` (connection 0 is an approved member of `"r1"`) a second
request-join from connection 0 stores a pending request while 0 stays a
member. -/
theorem roomchat_c5_amended_witness :
    alistLookup (handleRequestJoin (run (traceC5.take 6)) 0 "r1" "p" "alice" "req2" 7).1.pending
        "req2" = some ⟨0, jsTrim "r1", jsSlice20 (jsOr "alice" "User"), 7⟩ :=
  (roomchat_c5_amended (run (traceC5.take 6)) 0 "r1" "p" "alice" "req2" 7
      ⟨"r1", bcryptHash "p", bcryptHash "a", true⟩ "r1"
      (by decide) (by decide) (by decide) (by decide)).1

end Roomchat
